import Mathlib

/-!
Verification of the RTanks Discord bot (`src/bot.py`) and of the scraper
core whose contract the spec describes.  Python strings are embedded as
`List Char`; Python string methods (`strip`, `lower`) are embedded as
explicit character-list functions.  The scraper module itself is not part
of the provided source, so its components (Normalizer, Facade, dedup
cache) are modelled from the spec where a claim needs them; everything
else is translated from `bot.py`.
-/

/-- Embedding of Python `str.strip()` whitespace test (ASCII whitespace). -/
def pyIsSpace (c : Char) : Bool :=
  c = ' ' || c = '\t' || c = '\n' || c = '\r' || c = '\x0b' || c = '\x0c'

/-- Embedding of Python `str.strip()`: drop whitespace from both ends. -/
def pyStrip (s : List Char) : List Char :=
  ((s.dropWhile pyIsSpace).reverse.dropWhile pyIsSpace).reverse

/-- Embedding of Python `str.lower()` on the ASCII usernames involved. -/
def pyLower (s : List Char) : List Char :=
  s.map Char.toLower

/-- The character for a decimal digit value. -/
def digitToChar (d : ℕ) : Char := Char.ofNat (48 + d)

/-- Decimal digit value of a character, when it is a digit. -/
def charToDigit (c : Char) : Option ℕ :=
  if c.isDigit then some (c.toNat - 48) else none

/-- Decimal rendering of a natural number as characters (big-endian). -/
def natToChars (n : ℕ) : List Char :=
  if n = 0 then ['0'] else ((Nat.digits 10 n).reverse.map digitToChar)

/-- Accumulating decimal parse; fails on the first non-digit character. -/
def parseDigitsAux : ℕ → List Char → Option ℕ
  | acc, [] => some acc
  | acc, c :: rest =>
    if c.isDigit then parseDigitsAux (10 * acc + (c.toNat - 48)) rest else none

/-- Decimal parse of a non-empty all-digit character list. -/
def parseNatChars (s : List Char) : Option ℕ :=
  if s.isEmpty then none else parseDigitsAux 0 s

lemma digitToChar_isDigit {d : ℕ} (hd : d < 10) : (digitToChar d).isDigit = true := by
  unfold digitToChar
  interval_cases d <;> decide

lemma digitToChar_toNat {d : ℕ} (hd : d < 10) : (digitToChar d).toNat - 48 = d := by
  unfold digitToChar
  interval_cases d <;> decide

lemma digitToChar_ne_dot {d : ℕ} (hd : d < 10) : digitToChar d ≠ '.' := by
  unfold digitToChar
  interval_cases d <;> decide

lemma digitToChar_ne_comma {d : ℕ} (hd : d < 10) : digitToChar d ≠ ',' := by
  unfold digitToChar
  interval_cases d <;> decide

lemma parseDigitsAux_map_digits :
    ∀ (M : List ℕ) (acc : ℕ), (∀ d ∈ M, d < 10) →
      parseDigitsAux acc (M.map digitToChar) =
        some (M.foldl (fun a d => 10 * a + d) acc) := by
  intro M
  induction M with
  | nil => intro acc _; rfl
  | cons d M ih =>
    intro acc h
    have hd : d < 10 := h d (List.mem_cons_self d M)
    simp only [List.map_cons, parseDigitsAux, digitToChar_isDigit hd, if_true,
      digitToChar_toNat hd, List.foldl_cons]
    exact ih _ (fun x hx => h x (List.mem_cons_of_mem d hx))

lemma foldr_eq_ofDigits (L : List ℕ) :
    L.foldr (fun d a => 10 * a + d) 0 = Nat.ofDigits 10 L := by
  induction L with
  | nil => simp [Nat.ofDigits]
  | cons d L ih =>
    simp [List.foldr_cons, ih, Nat.ofDigits_cons]
    ring

lemma natToChars_all_digits {n : ℕ} : ∀ c ∈ natToChars n, c.isDigit = true := by
  intro c hc
  unfold natToChars at hc
  by_cases h : n = 0
  · simp [h] at hc
    simp [hc]
  · simp [h] at hc
    obtain ⟨d, hd, rfl⟩ := hc
    exact digitToChar_isDigit (Nat.digits_lt_base (by norm_num) hd)

/-- Round trip: the decimal rendering of `n` parses back to `n`. -/
lemma parseNatChars_natToChars (n : ℕ) : parseNatChars (natToChars n) = some n := by
  by_cases h : n = 0
  · subst h; rfl
  · have hne : Nat.digits 10 n ≠ [] := Nat.digits_ne_nil_iff_ne_zero.mpr h
    unfold parseNatChars natToChars
    rw [if_neg h]
    have hlt : ∀ d ∈ (Nat.digits 10 n).reverse, d < 10 := by
      intro d hd
      exact Nat.digits_lt_base (by norm_num) (List.mem_reverse.mp hd)
    have hnonempty : ((Nat.digits 10 n).reverse.map digitToChar).isEmpty = false := by
      simp [List.isEmpty_iff, hne]
    rw [hnonempty]
    simp only [Bool.false_eq_true, if_false]
    rw [parseDigitsAux_map_digits _ 0 hlt]
    rw [List.foldl_reverse, foldr_eq_ofDigits, Nat.ofDigits_digits]

/-- Render a centi-unit value (hundredths) with exactly 2 decimal places,
as Python `f"{x:.2f}"` renders the nonnegative K/D float. -/
def formatCenti (n : ℕ) : List Char :=
  natToChars (n / 100) ++ ['.', digitToChar (n % 100 / 10), digitToChar (n % 100 % 10)]

/-- Split a character list at its first dot. -/
def splitAtDot : List Char → Option (List Char × List Char)
  | [] => none
  | c :: rest =>
    if c = '.' then some ([], rest)
    else (splitAtDot rest).map (fun p => (c :: p.1, p.2))

/-- Embedding of the consumer-side `float(...)` call of `bot.py` line 416 on
the two-decimal display strings the record carries: the parsed value, in
centi-units. -/
def parseFloatCenti (s : List Char) : Option ℕ :=
  match splitAtDot s with
  | some (intPart, [c1, c2]) =>
    match parseNatChars intPart, charToDigit c1, charToDigit c2 with
    | some i, some d1, some d2 => some (100 * i + 10 * d1 + d2)
    | _, _, _ => none
  | _ => none

/-- Modelled from the spec: the Normalizer's K/D computation (the scraper
module is absent from src).  If the page exposes an explicit ratio the
parsed, 2-decimal-rounded value (in centi-units) is used; otherwise
`kills / max(deaths, 1)` is computed and rounded to 2 decimals. -/
def kdCenti (siteRatioCenti : Option ℕ) (kills deaths : ℕ) : ℕ :=
  match siteRatioCenti with
  | some r => r
  | none => (2 * (100 * kills) + max deaths 1) / (2 * max deaths 1)

/-- The K/D ratio as a rational number, for comparisons. -/
def kdRatioQ (siteRatioCenti : Option ℕ) (kills deaths : ℕ) : ℚ :=
  (kdCenti siteRatioCenti kills deaths : ℚ) / 100

/-- The K/D ratio display string carried in the `PlayerRecord`. -/
def kdDisplay (siteRatioCenti : Option ℕ) (kills deaths : ℕ) : List Char :=
  formatCenti (kdCenti siteRatioCenti kills deaths)

lemma splitAtDot_append {a b : List Char} (ha : ∀ c ∈ a, c ≠ '.') :
    splitAtDot (a ++ '.' :: b) = some (a, b) := by
  induction a with
  | nil => simp [splitAtDot]
  | cons c a ih =>
    have hc : c ≠ '.' := ha c (List.mem_cons_self c a)
    simp only [List.cons_append, splitAtDot, if_neg hc, List.append_eq]
    rw [ih (fun x hx => ha x (List.mem_cons_of_mem c hx))]
    rfl

lemma natToChars_no_dot {n : ℕ} : ∀ c ∈ natToChars n, c ≠ '.' := by
  intro c hc
  have := natToChars_all_digits c hc
  intro h
  subst h
  simp [Char.isDigit] at this

lemma charToDigit_digitToChar {d : ℕ} (hd : d < 10) :
    charToDigit (digitToChar d) = some d := by
  unfold charToDigit
  rw [if_pos (digitToChar_isDigit hd), digitToChar_toNat hd]

/-- Round trip: the two-decimal display renders back to the same value under
the consumer's float parse. -/
lemma parseFloatCenti_formatCenti (n : ℕ) : parseFloatCenti (formatCenti n) = some n := by
  unfold parseFloatCenti formatCenti
  have h1 : n % 100 / 10 < 10 := by omega
  have h2 : n % 100 % 10 < 10 := by omega
  rw [show natToChars (n / 100) ++ ['.', digitToChar (n % 100 / 10), digitToChar (n % 100 % 10)]
      = natToChars (n / 100) ++ '.' :: [digitToChar (n % 100 / 10), digitToChar (n % 100 % 10)] from rfl]
  rw [splitAtDot_append natToChars_no_dot]
  simp only [parseNatChars_natToChars, charToDigit_digitToChar h1, charToDigit_digitToChar h2]
  have : 100 * (n / 100) + 10 * (n % 100 / 10) + n % 100 % 10 = n := by omega
  rw [this]

/-- Modelled from the spec: the Normalizer's numeric-field normalization
(the scraper module is absent from src).  Thousands separators are
stripped, the remaining text is parsed as a decimal integer, and any
missing, empty, punctuation-only or otherwise malformed field normalizes
to 0 instead of raising a parse fault. -/
def normalizeNumeric : Option (List Char) → ℕ
  | none => 0
  | some s =>
    match parseNatChars (s.filter (fun c => c != ',')) with
    | some n => n
    | none => 0

/-- Insert a thousands separator after every third digit, counting from the
least significant end; the input is little-endian. -/
def group3Aux : ℕ → List Char → List Char
  | _, [] => []
  | k, c :: rest =>
    if k = 0 then ',' :: c :: group3Aux 2 rest else c :: group3Aux (k - 1) rest

/-- Thousands-separated decimal rendering of a natural number. -/
def formatThousands (n : ℕ) : List Char :=
  (group3Aux 3 (natToChars n).reverse).reverse

lemma isDigit_ne_comma {c : Char} (h : c.isDigit = true) : c ≠ ',' := by
  intro heq
  subst heq
  exact absurd h (by decide)

lemma group3Aux_filter :
    ∀ (l : List Char) (k : ℕ), (∀ c ∈ l, c ≠ ',') →
      (group3Aux k l).filter (fun c => c != ',') = l := by
  intro l
  induction l with
  | nil => intro k _; rfl
  | cons c rest ih =>
    intro k h
    have hc : c ≠ ',' := h c (List.mem_cons_self c rest)
    have hcb : (c != ',') = true := by simpa [bne_iff_ne] using hc
    have hrest : ∀ x ∈ rest, x ≠ ',' := fun x hx => h x (List.mem_cons_of_mem c hx)
    by_cases hk : k = 0
    · simp [group3Aux, hk, List.filter, hcb, ih 2 hrest]
    · simp [group3Aux, hk, List.filter, hcb, ih (k - 1) hrest]

lemma filter_formatThousands (n : ℕ) :
    (formatThousands n).filter (fun c => c != ',') = natToChars n := by
  unfold formatThousands
  rw [List.filter_reverse]
  rw [group3Aux_filter _ 3 (fun c hc =>
    isDigit_ne_comma (natToChars_all_digits c (List.mem_reverse.mp hc)))]
  exact List.reverse_reverse _

lemma parseDigitsAux_eq_none :
    ∀ (l : List Char) (c : Char), c ∈ l → c.isDigit = false →
      ∀ acc, parseDigitsAux acc l = none := by
  intro l
  induction l with
  | nil => intro c hc; cases hc
  | cons d rest ih =>
    intro c hc hcd acc
    rcases List.mem_cons.mp hc with h | h
    · subst h
      simp [parseDigitsAux, hcd]
    · by_cases hdig : d.isDigit
      · simp only [parseDigitsAux, hdig, if_true]
        exact ih c h hcd _
      · simp [parseDigitsAux, hdig]

lemma normalizeNumeric_nodigit {s : List Char} (h : ∀ c ∈ s, c.isDigit = false) :
    normalizeNumeric (some s) = 0 := by
  show (match parseNatChars (s.filter (fun c => c != ',')) with
    | some m => m
    | none => 0) = 0
  cases ht : s.filter (fun c => c != ',') with
  | nil => rfl
  | cons c rest =>
    have hc : c ∈ s := List.mem_of_mem_filter (ht ▸ List.mem_cons_self c rest)
    have hparse : parseNatChars (c :: rest) = none := by
      unfold parseNatChars
      simp only [List.isEmpty_cons, Bool.false_eq_true, if_false]
      exact parseDigitsAux_eq_none (c :: rest) c (List.mem_cons_self c rest) (h c hc) 0
    rw [hparse]

lemma normalizeNumeric_formatThousands (n : ℕ) :
    normalizeNumeric (some (formatThousands n)) = n := by
  show (match parseNatChars ((formatThousands n).filter (fun c => c != ',')) with
    | some m => m
    | none => 0) = n
  rw [filter_formatThousands, parseNatChars_natToChars]

/-- The canonical sentinel rank for unrecognized rank text. -/
def unknownRank : List Char := ['U', 'n', 'k', 'n', 'o', 'w', 'n']

/-- Modelled from the spec: the Normalizer's rank resolution (the scraper
module is absent from src, and the concrete rank vocabulary is external
data, so the ordered table is a parameter).  Rank text is matched
case-insensitively against the table; unmatched text maps to the
"Unknown" sentinel instead of failing. -/
def normalizeRank (table : List (List Char)) (s : List Char) : List Char :=
  match table.find? (fun r => pyLower r == pyLower s) with
  | some r => r
  | none => unknownRank

/-- Equipment lists of a player: two ordered sequences of names. -/
structure Equipment where
  turrets : List (List Char)
  hulls : List (List Char)
deriving DecidableEq

/-- The normalized statistics record the Facade returns (spec section 3). -/
structure PlayerRecord where
  username : List Char
  rank : List Char
  experience : ℕ
  max_experience : Option ℕ
  kills : ℕ
  deaths : ℕ
  kd_ratio : List Char
  premium : Bool
  gold_boxes : ℕ
  group : List Char
  equipment : Equipment
  is_online : Bool
deriving DecidableEq

/-- Modelled from the spec: the maximum accepted username length of the
Facade's input validation (the concrete bound is a design constant of the
absent scraper module). -/
def maxUsernameLength : ℕ := 32

/-- Modelled from the spec: the Scraper Facade `get_player_data` input
validation (the scraper module is absent from src).  The username is
trimmed and validated before any I/O; invalid input returns `none`
without a fetch.  The fetcher is a parameter and the second component
records the usernames actually fetched. -/
def getPlayerData (fetch : List Char → Option PlayerRecord) (username : List Char) :
    Option PlayerRecord × List (List Char) :=
  if pyStrip username = [] ∨ maxUsernameLength < (pyStrip username).length then (none, [])
  else (fetch (pyStrip username), [pyStrip username])

lemma pyStrip_eq_nil {s : List Char} (h : ∀ c ∈ s, pyIsSpace c = true) :
    pyStrip s = [] := by
  unfold pyStrip
  have h1 : s.dropWhile pyIsSpace = [] := List.dropWhile_eq_nil_iff.mpr h
  rw [h1]
  rfl

/-- The case-folded cache key of a lookup (spec section 4.4). -/
def lookupKey (username : List Char) : List Char := pyLower (pyStrip username)

/-- State of the dedup cache: in-flight fetches keyed by case-folded
username, each carrying the ticket that identifies its pending result,
together with an outbound-fetch counter. -/
structure DedupState where
  inflight : List (List Char × ℕ)
  fetchCount : ℕ
  nextTicket : ℕ
deriving DecidableEq

/-- Modelled from the spec: the cache/rate-limiter join policy of the absent
scraper module.  Starting a lookup inside the dedup window either joins
the in-flight fetch for the same case-folded key, or registers a new
in-flight fetch, incrementing the outbound-fetch counter. -/
def startLookup (st : DedupState) (username : List Char) : DedupState × ℕ :=
  match st.inflight.find? (fun q => q.1 == lookupKey username) with
  | some q => (st, q.2)
  | none =>
    (⟨(lookupKey username, st.nextTicket) :: st.inflight,
      st.fetchCount + 1, st.nextTicket + 1⟩, st.nextTicket)

/-- Start a batch of concurrent lookups within one dedup window (no fetch
completes in between); returns the final state and each caller's ticket. -/
def runLookups (st : DedupState) (users : List (List Char)) : DedupState × List ℕ :=
  match users with
  | [] => (st, [])
  | u :: rest =>
    ((runLookups (startLookup st u).1 rest).1,
      (startLookup st u).2 :: (runLookups (startLookup st u).1 rest).2)

lemma startLookup_join {st : DedupState} {u : List Char} {q : List Char × ℕ}
    (hq : st.inflight.find? (fun p => p.1 == lookupKey u) = some q) :
    startLookup st u = (st, q.2) := by
  unfold startLookup
  rw [hq]

lemma runLookups_all_joined :
    ∀ (users : List (List Char)) (st : DedupState) (key : List Char) (q : List Char × ℕ),
      (∀ u ∈ users, lookupKey u = key) →
      st.inflight.find? (fun p => p.1 == key) = some q →
      runLookups st users = (st, users.map (fun _ => q.2)) := by
  intro users
  induction users with
  | nil => intro st key q _ _; rfl
  | cons u rest ih =>
    intro st key q hkeys hfind
    have hu : lookupKey u = key := hkeys u (List.mem_cons_self u rest)
    have hstart : startLookup st u = (st, q.2) := by
      apply startLookup_join
      rw [hu]
      exact hfind
    have hrest : runLookups st rest = (st, rest.map (fun _ => q.2)) :=
      ih st key q (fun v hv => hkeys v (List.mem_cons_of_mem u hv)) hfind
    show ((runLookups (startLookup st u).1 rest).1,
      (startLookup st u).2 :: (runLookups (startLookup st u).1 rest).2) = _
    rw [hstart]
    simp only [hrest, List.map_cons]

/-- The bot statistics counters initialized in RTanksBot.__init__
(bot.py lines 34-39). -/
structure Stats where
  commands_processed : ℕ
  scraping_successes : ℕ
  scraping_failures : ℕ
  total_scraping_time : ℚ
deriving DecidableEq

/-- The counters as __init__ sets them. -/
def Stats.init : Stats := ⟨0, 0, 0, 0⟩

/-- Componentwise order on the statistics counters. -/
def Stats.below (s t : Stats) : Prop :=
  s.commands_processed ≤ t.commands_processed ∧
  s.scraping_successes ≤ t.scraping_successes ∧
  s.scraping_failures ≤ t.scraping_failures ∧
  s.total_scraping_time ≤ t.total_scraping_time

/-- The distinct user-visible embeds the handlers can send. -/
inductive Embed
  | playerNotFound (name : List Char)
  | playersNotFound (n1 n2 : List Char)
  | invalidComparison
  | playerStats (r : PlayerRecord)
  | comparison (r1 r2 : PlayerRecord)
  | playerError
  | compareError
deriving DecidableEq

/-- Embedding of `player_command_handler` (bot.py lines 67-106).  The
awaited `get_player_data` call either returns a value or raises; the
`except` branch catches any raise inside the `try` block.  Returns the
updated counters and the embed sent to the user. -/
def playerHandler (st : Stats) (username : List Char)
    (outcome : Except Unit (Option PlayerRecord)) (elapsed : ℚ) : Stats × Embed :=
  let st1 : Stats := { st with commands_processed := st.commands_processed + 1 }
  match outcome with
  | .error _ =>
    ({ st1 with scraping_failures := st1.scraping_failures + 1 }, .playerError)
  | .ok none =>
    ({ st1 with scraping_failures := st1.scraping_failures + 1 },
      .playerNotFound username)
  | .ok (some r) =>
    ({ st1 with
        scraping_successes := st1.scraping_successes + 1
        total_scraping_time := st1.total_scraping_time + elapsed }, .playerStats r)

/-- Embedding of bot.py lines 143-148: a gathered result that is an
exception is degraded to `None` before the not-found checks. -/
def exceptToOption : Except Unit (Option PlayerRecord) → Option PlayerRecord
  | .error _ => none
  | .ok v => v

/-- Embedding of `compare_command_handler` (bot.py lines 112-186).  The two
gathered lookups deliver either a value or, with `return_exceptions=True`,
the raised exception, which lines 143-148 convert to `None`.  Returns the
updated counters, the embed sent, and the list of lookups issued. -/
def compareHandler (st : Stats) (p1 p2 : List Char)
    (o1 o2 : Except Unit (Option PlayerRecord)) (elapsed : ℚ) :
    Stats × Embed × List (List Char) :=
  let st1 : Stats := { st with commands_processed := st.commands_processed + 1 }
  if pyLower (pyStrip p1) = pyLower (pyStrip p2) then (st1, .invalidComparison, [])
  else
    match exceptToOption o1, exceptToOption o2 with
    | none, none =>
      ({ st1 with scraping_failures := st1.scraping_failures + 2 },
        .playersNotFound (pyStrip p1) (pyStrip p2), [pyStrip p1, pyStrip p2])
    | none, some _ =>
      ({ st1 with scraping_failures := st1.scraping_failures + 1 },
        .playerNotFound (pyStrip p1), [pyStrip p1, pyStrip p2])
    | some _, none =>
      ({ st1 with scraping_failures := st1.scraping_failures + 1 },
        .playerNotFound (pyStrip p2), [pyStrip p1, pyStrip p2])
    | some a, some b =>
      ({ st1 with
          scraping_successes := st1.scraping_successes + 2
          total_scraping_time := st1.total_scraping_time + elapsed },
        .comparison a b, [pyStrip p1, pyStrip p2])

/-- Embedding of the compare handler's outer `except` branch (bot.py lines
188-197): `commands_processed` was already incremented at line 117. -/
def compareHandlerFault (st : Stats) : Stats × Embed :=
  let st1 : Stats := { st with commands_processed := st.commands_processed + 1 }
  ({ st1 with scraping_failures := st1.scraping_failures + 1 }, .compareError)

/-- Embedding of the counter effect of `botstats_command_handler`
(bot.py line 203). -/
def botstatsHandler (st : Stats) : Stats :=
  { st with commands_processed := st.commands_processed + 1 }

/-- Embedding of Python `round(q, 2)` on the nonnegative rationals involved. -/
def pyRound2 (q : ℚ) : ℚ := (round (q * 100) : ℤ) / 100

/-- Embedding of Python `round(q, 1)` on the nonnegative rationals involved. -/
def pyRound1 (q : ℚ) : ℚ := (round (q * 10) : ℤ) / 10

/-- Embedding of the average scraping latency computation of
`botstats_command_handler` (bot.py lines 208-211). -/
def avgScrapingLatency (st : Stats) : ℚ :=
  if st.scraping_successes > 0 then
    pyRound2 ((st.total_scraping_time / st.scraping_successes) * 1000)
  else 0

/-- Embedding of the success rate computation of `botstats_command_handler`
(bot.py lines 222-226). -/
def successRate (st : Stats) : ℚ :=
  if st.scraping_successes + st.scraping_failures > 0 then
    pyRound1 (((st.scraping_successes : ℚ) /
      ((st.scraping_successes : ℚ) + (st.scraping_failures : ℚ))) * 100)
  else 0

/-- Outcome of the probe GET inside `_check_website_status`: either the
HTTP status code with the measured response time (in hundredths of a
millisecond, as `round(..., 2)` renders it), or a raised exception. -/
inductive ProbeOutcome
  | response (status : ℕ) (responseTimeCenti : ℕ)
  | raised
deriving DecidableEq

/-- The "Online" status line of `_check_website_status`. -/
def onlineStatusMsg (rtCenti : ℕ) : List Char :=
  "🟢 Online (".toList ++ formatCenti rtCenti ++ "ms)".toList

/-- The "Partial" status line of `_check_website_status`. -/
def partialStatusMsg (code : ℕ) : List Char :=
  "🟡 Partial (".toList ++ natToChars code ++ ")".toList

/-- The "Offline" status line of `_check_website_status`. -/
def offlineStatusMsg : List Char := "🔴 Offline".toList

/-- Embedding of `_check_website_status` (bot.py lines 491-504): the probe
either responds (status 200 yields "Online" with the response time, any
other status yields "Partial" with the code) or raises, which the
`except` clause turns into "Offline". -/
def checkWebsiteStatus (probe : ProbeOutcome) : List Char :=
  match probe with
  | .response status rt =>
    if status = 200 then onlineStatusMsg rt else partialStatusMsg status
  | .raised => offlineStatusMsg

lemma normalizeNumeric_malformed {s : List Char} {c : Char} (hc : c ∈ s)
    (hd : c.isDigit = false) (hcomma : c ≠ ',') :
    normalizeNumeric (some s) = 0 := by
  show (match parseNatChars (s.filter (fun x => x != ',')) with
    | some m => m
    | none => 0) = 0
  have hmem : c ∈ s.filter (fun x => x != ',') :=
    List.mem_filter.mpr ⟨hc, by simpa [bne_iff_ne] using hcomma⟩
  have hne : s.filter (fun x => x != ',') ≠ [] := List.ne_nil_of_mem hmem
  have hparse : parseNatChars (s.filter (fun x => x != ',')) = none := by
    unfold parseNatChars
    have hempty : (s.filter (fun x => x != ',')).isEmpty = false := by
      simp [List.isEmpty_iff, hne]
    rw [hempty]
    simp only [Bool.false_eq_true, if_false]
    exact parseDigitsAux_eq_none _ c hmem hd 0
  rw [hparse]

/-- C1: the K/D ratio of a record is nonnegative (and, being rational,
finite), well defined even when deaths = 0 where it equals
kills / max(deaths, 1) = kills, equals the site-reported value when one
is present, and its two-decimal display string parses back to exactly
the same value under the consumer's float parse (bot.py line 416). -/
theorem kd_ratio_nonneg_welldefined_parseable :
    (∀ site kills deaths, (0 : ℚ) ≤ kdRatioQ site kills deaths) ∧
    (∀ kills, kdCenti none kills 0 = 100 * kills ∧ kdCenti none kills 1 = 100 * kills) ∧
    (∀ r kills deaths, kdCenti (some r) kills deaths = r) ∧
    (∀ site kills deaths,
      parseFloatCenti (kdDisplay site kills deaths) = some (kdCenti site kills deaths)) := by
  refine ⟨?_, ?_, ?_, ?_⟩
  · intro site kills deaths
    unfold kdRatioQ
    positivity
  · intro kills
    constructor
    · show (2 * (100 * kills) + max 0 1) / (2 * max 0 1) = 100 * kills
      norm_num
      omega
    · show (2 * (100 * kills) + max 1 1) / (2 * max 1 1) = 100 * kills
      norm_num
      omega
  · intro r kills deaths
    rfl
  · intro site kills deaths
    exact parseFloatCenti_formatCenti _

/-- C4: numeric normalization is total with default 0 and never raises: a
missing field, an empty field, a field containing any non-digit
non-separator character, or a field with no digits at all, all normalize
to 0, while a thousands-separated decimal rendering of n parses to n. -/
theorem normalize_numeric_total :
    normalizeNumeric none = 0 ∧
    normalizeNumeric (some []) = 0 ∧
    (∀ (s : List Char) (c : Char), c ∈ s → c.isDigit = false → c ≠ ',' →
      normalizeNumeric (some s) = 0) ∧
    (∀ s : List Char, (∀ c ∈ s, c.isDigit = false) → normalizeNumeric (some s) = 0) ∧
    (∀ n : ℕ, normalizeNumeric (some (formatThousands n)) = n) := by
  refine ⟨rfl, rfl, ?_, ?_, normalizeNumeric_formatThousands⟩
  · intro s c hc hd hcomma
    exact normalizeNumeric_malformed hc hd hcomma
  · intro s h
    exact normalizeNumeric_nodigit h

/-- Witness for C4 at concrete inputs: a malformed field, a
punctuation-only field, and the thousands-separated rendering of
1234567. -/
theorem normalize_numeric_total_witness :
    ('x' ∈ ['1', 'x', '2'] ∧ 'x'.isDigit = false ∧ 'x' ≠ ',') ∧
    normalizeNumeric (some ['1', 'x', '2']) = 0 ∧
    (∀ c ∈ ['.', ',', '-'], c.isDigit = false) ∧
    normalizeNumeric (some ['.', ',', '-']) = 0 ∧
    normalizeNumeric (some (formatThousands 1234567)) = 1234567 :=
  ⟨by decide,
    normalize_numeric_total.2.2.1 ['1', 'x', '2'] 'x' (by decide) (by decide) (by decide),
    by decide,
    normalize_numeric_total.2.2.2.1 ['.', ',', '-'] (by decide),
    normalize_numeric_total.2.2.2.2 1234567⟩

/-- C5: rank text is matched case-insensitively against the ordered rank
table; the result is always either a table entry matching the input
case-insensitively or the "Unknown" sentinel, and text matching no entry
always yields the sentinel: resolution is total and never fails. -/
theorem normalize_rank_unknown_sentinel :
    (∀ (table : List (List Char)) (s : List Char),
      (∀ r ∈ table, pyLower r ≠ pyLower s) → normalizeRank table s = unknownRank) ∧
    (∀ (table : List (List Char)) (s : List Char),
      normalizeRank table s = unknownRank ∨
        (normalizeRank table s ∈ table ∧
          pyLower (normalizeRank table s) = pyLower s)) := by
  constructor
  · intro table s h
    unfold normalizeRank
    have hnone : table.find? (fun r => pyLower r == pyLower s) = none := by
      rw [List.find?_eq_none]
      intro r hr
      simpa [beq_iff_eq] using h r hr
    rw [hnone]
  · intro table s
    cases hfind : table.find? (fun r => pyLower r == pyLower s) with
    | none =>
      left
      unfold normalizeRank
      rw [hfind]
    | some r =>
      right
      have hres : normalizeRank table s = r := by
        unfold normalizeRank
        rw [hfind]
      rw [hres]
      exact ⟨List.mem_of_find?_eq_some hfind,
        by simpa [beq_iff_eq] using List.find?_some hfind⟩

/-- Witness for C5: a concrete table with a case-insensitive hit and a
concrete unmatched rank string mapping to the sentinel. -/
theorem normalize_rank_unknown_sentinel_witness :
    (∀ r ∈ [['R', 'e', 'c', 'r', 'u', 'i', 't'], ['S', 'e', 'r', 'g', 'e', 'a', 'n', 't']],
      pyLower r ≠ pyLower ['M', 'a', 'j', 'o', 'r']) ∧
    normalizeRank [['R', 'e', 'c', 'r', 'u', 'i', 't'], ['S', 'e', 'r', 'g', 'e', 'a', 'n', 't']]
      ['M', 'a', 'j', 'o', 'r'] = unknownRank ∧
    (normalizeRank [['R', 'e', 'c', 'r', 'u', 'i', 't']] ['r', 'E', 'C', 'r', 'u', 'i', 't'] =
        unknownRank ∨
      (normalizeRank [['R', 'e', 'c', 'r', 'u', 'i', 't']] ['r', 'E', 'C', 'r', 'u', 'i', 't'] ∈
          [['R', 'e', 'c', 'r', 'u', 'i', 't']] ∧
        pyLower (normalizeRank [['R', 'e', 'c', 'r', 'u', 'i', 't']]
          ['r', 'E', 'C', 'r', 'u', 'i', 't']) = pyLower ['r', 'E', 'C', 'r', 'u', 'i', 't'])) :=
  ⟨by decide,
    normalize_rank_unknown_sentinel.1 _ _ (by decide),
    normalize_rank_unknown_sentinel.2 [['R', 'e', 'c', 'r', 'u', 'i', 't']]
      ['r', 'E', 'C', 'r', 'u', 'i', 't']⟩

/-- C2 counterexample: an internal fault reaching the player command handler
is presented with the error embed, which differs from the not-found embed
used for the null case, so a fault is not presented exactly as null. -/
theorem player_fault_embed_differs_from_not_found :
    (playerHandler Stats.init ['A', 'l', 'p', 'h', 'a'] (Except.error ()) 0).2 ≠
      (playerHandler Stats.init ['A', 'l', 'p', 'h', 'a'] (Except.ok none) 0).2 := by
  decide

/-- C2 amended: no failure propagates as an unhandled fault past the
handlers.  The compare handler degrades a fault from either lookup to
None and then presents it exactly as the null case; the player handler
catches a fault but presents it with its own error embed, distinct from
the not-found embed. -/
theorem fault_handling_uniform_or_distinct :
    (∀ st p1 p2 o2 t, compareHandler st p1 p2 (Except.error ()) o2 t =
      compareHandler st p1 p2 (Except.ok none) o2 t) ∧
    (∀ st p1 p2 o1 t, compareHandler st p1 p2 o1 (Except.error ()) t =
      compareHandler st p1 p2 o1 (Except.ok none) t) ∧
    (∀ st u t, (playerHandler st u (Except.error ()) t).2 = Embed.playerError) := by
  refine ⟨?_, ?_, ?_⟩
  · intro st p1 p2 o2 t
    rfl
  · intro st p1 p2 o1 t
    rfl
  · intro st u t
    rfl

/-- C3: when the two usernames agree case-insensitively after trimming, the
compare handler sends the self-comparison rejection embed and issues no
lookup for either username. -/
theorem self_compare_no_lookup (st : Stats) (p1 p2 : List Char)
    (o1 o2 : Except Unit (Option PlayerRecord)) (t : ℚ)
    (h : pyLower (pyStrip p1) = pyLower (pyStrip p2)) :
    (compareHandler st p1 p2 o1 o2 t).2.1 = Embed.invalidComparison ∧
    (compareHandler st p1 p2 o1 o2 t).2.2 = [] := by
  unfold compareHandler
  rw [if_pos h]
  exact ⟨rfl, rfl⟩

/-- Witness for C3: usernames differing in case and surrounding whitespace
are rejected without any lookup. -/
theorem self_compare_no_lookup_witness :
    pyLower (pyStrip ['A', 'l', 'p', 'h', 'a']) =
      pyLower (pyStrip [' ', 'A', 'L', 'P', 'H', 'A', ' ']) ∧
    (compareHandler Stats.init ['A', 'l', 'p', 'h', 'a'] [' ', 'A', 'L', 'P', 'H', 'A', ' ']
      (Except.ok none) (Except.ok none) 0).2.1 = Embed.invalidComparison ∧
    (compareHandler Stats.init ['A', 'l', 'p', 'h', 'a'] [' ', 'A', 'L', 'P', 'H', 'A', ' ']
      (Except.ok none) (Except.ok none) 0).2.2 = [] :=
  ⟨by decide,
    (self_compare_no_lookup Stats.init _ _ _ _ 0 (by decide)).1,
    (self_compare_no_lookup Stats.init _ _ _ _ 0 (by decide)).2⟩

/-- C6: a username that trims to empty, is whitespace-only, or exceeds the
maximum length after trimming makes `get_player_data` return `none`
immediately with no outbound fetch, whatever the fetcher would return. -/
theorem invalid_username_no_fetch (fetch : List Char → Option PlayerRecord)
    (username : List Char)
    (h : pyStrip username = [] ∨ (∀ c ∈ username, pyIsSpace c = true) ∨
      maxUsernameLength < (pyStrip username).length) :
    getPlayerData fetch username = (none, []) := by
  unfold getPlayerData
  rcases h with h | h | h
  · rw [if_pos (Or.inl h)]
  · rw [if_pos (Or.inl (pyStrip_eq_nil h))]
  · rw [if_pos (Or.inr h)]

/-- Witness for C6: a whitespace-only username returns none and produces an
empty fetch log. -/
theorem invalid_username_no_fetch_witness :
    (∀ c ∈ [' ', ' ', '\t'], pyIsSpace c = true) ∧
    getPlayerData (fun _ => none) [' ', ' ', '\t'] = (none, []) :=
  ⟨by decide, invalid_username_no_fetch _ _ (Or.inr (Or.inl (by decide)))⟩

/-- C7: when a batch of concurrent lookups all case-fold to the same key
and no fetch for that key is in flight, the whole batch performs exactly
one outbound fetch and every caller receives the ticket of that single
fetch. -/
theorem dedup_single_fetch (st : DedupState) (u : List Char) (rest : List (List Char))
    (hkeys : ∀ v ∈ rest, lookupKey v = lookupKey u)
    (hnew : st.inflight.find? (fun q => q.1 == lookupKey u) = none) :
    (runLookups st (u :: rest)).1.fetchCount = st.fetchCount + 1 ∧
    ∀ t ∈ (runLookups st (u :: rest)).2, t = st.nextTicket := by
  have hstart : startLookup st u =
      (⟨(lookupKey u, st.nextTicket) :: st.inflight, st.fetchCount + 1, st.nextTicket + 1⟩,
        st.nextTicket) := by
    unfold startLookup
    rw [hnew]
  have hfind2 : ((⟨(lookupKey u, st.nextTicket) :: st.inflight, st.fetchCount + 1,
      st.nextTicket + 1⟩ : DedupState)).inflight.find? (fun q => q.1 == lookupKey u) =
      some (lookupKey u, st.nextTicket) := by
    simp [List.find?]
  have hrun := runLookups_all_joined rest
    ⟨(lookupKey u, st.nextTicket) :: st.inflight, st.fetchCount + 1, st.nextTicket + 1⟩
    (lookupKey u) (lookupKey u, st.nextTicket) hkeys hfind2
  constructor
  · show (runLookups (startLookup st u).1 rest).1.fetchCount = st.fetchCount + 1
    rw [hstart, hrun]
  · intro t ht
    have ht2 : t ∈ (startLookup st u).2 :: (runLookups (startLookup st u).1 rest).2 := ht
    rw [hstart, hrun] at ht2
    rcases List.mem_cons.mp ht2 with h | h
    · exact h
    · obtain ⟨x, _, hx⟩ := List.mem_map.mp h
      exact hx.symm

/-- Witness for C7: three concurrent lookups whose usernames differ only in
case and whitespace, against an idle dedup state, perform one fetch and
all receive ticket 0. -/
theorem dedup_single_fetch_witness :
    (∀ v ∈ [['A'], [' ', 'a']], lookupKey v = lookupKey ['a']) ∧
    (DedupState.mk [] 0 0).inflight.find? (fun q => q.1 == lookupKey ['a']) = none ∧
    (runLookups ⟨[], 0, 0⟩ (['a'] :: [['A'], [' ', 'a']])).1.fetchCount = 0 + 1 ∧
    ∀ t ∈ (runLookups ⟨[], 0, 0⟩ (['a'] :: [['A'], [' ', 'a']])).2, t = 0 :=
  ⟨by decide, by decide,
    (dedup_single_fetch ⟨[], 0, 0⟩ ['a'] [['A'], [' ', 'a']] (by decide) (by decide)).1,
    (dedup_single_fetch ⟨[], 0, 0⟩ ['a'] [['A'], [' ', 'a']] (by decide) (by decide)).2⟩

/-- C8: the website status check is total over all probe outcomes and never
propagates an exception: a 200 response yields the "Online" line with the
response time, any other status yields the "Partial" line with the code,
and a raised exception yields the "Offline" line. -/
theorem website_status_total :
    ∀ probe : ProbeOutcome,
      (∃ rt, probe = ProbeOutcome.response 200 rt ∧
        checkWebsiteStatus probe = onlineStatusMsg rt) ∨
      (∃ code rt, probe = ProbeOutcome.response code rt ∧ code ≠ 200 ∧
        checkWebsiteStatus probe = partialStatusMsg code) ∨
      (probe = ProbeOutcome.raised ∧ checkWebsiteStatus probe = offlineStatusMsg) := by
  intro probe
  cases probe with
  | response status rt =>
    by_cases h : status = 200
    · subst h
      exact Or.inl ⟨rt, rfl, by simp [checkWebsiteStatus]⟩
    · exact Or.inr (Or.inl ⟨status, rt, rfl, h, by simp [checkWebsiteStatus, h]⟩)
  | raised => exact Or.inr (Or.inr ⟨rfl, rfl⟩)

/-- C9: the botstats handler's computations are guarded against division by
zero: the average scraping latency is reported as 0 whenever there are no
scraping successes, and the success rate is reported as 0 whenever there
are neither successes nor failures. -/
theorem botstats_no_div_by_zero :
    (∀ st : Stats, st.scraping_successes = 0 → avgScrapingLatency st = 0) ∧
    (∀ st : Stats, st.scraping_successes + st.scraping_failures = 0 → successRate st = 0) := by
  constructor
  · intro st h
    unfold avgScrapingLatency
    rw [if_neg (by omega)]
  · intro st h
    unfold successRate
    rw [if_neg (by omega)]

/-- Witness for C9 at the freshly initialized counters. -/
theorem botstats_no_div_by_zero_witness :
    Stats.init.scraping_successes = 0 ∧ avgScrapingLatency Stats.init = 0 ∧
    Stats.init.scraping_successes + Stats.init.scraping_failures = 0 ∧
    successRate Stats.init = 0 :=
  ⟨rfl, botstats_no_div_by_zero.1 Stats.init rfl, rfl,
    botstats_no_div_by_zero.2 Stats.init rfl⟩

/-- C10: all four statistics counters start at zero, every handler path
increments `commands_processed` by exactly one, and no handler path
decreases any counter (the elapsed scraping time added on success paths
being nonnegative). -/
theorem stats_counters_monotone :
    (Stats.init.commands_processed = 0 ∧ Stats.init.scraping_successes = 0 ∧
      Stats.init.scraping_failures = 0 ∧ Stats.init.total_scraping_time = 0) ∧
    (∀ st u o t, 0 ≤ t →
      Stats.below st (playerHandler st u o t).1 ∧
      (playerHandler st u o t).1.commands_processed = st.commands_processed + 1) ∧
    (∀ st p1 p2 o1 o2 t, 0 ≤ t →
      Stats.below st (compareHandler st p1 p2 o1 o2 t).1 ∧
      (compareHandler st p1 p2 o1 o2 t).1.commands_processed = st.commands_processed + 1) ∧
    (∀ st, Stats.below st (compareHandlerFault st).1 ∧
      (compareHandlerFault st).1.commands_processed = st.commands_processed + 1) ∧
    (∀ st, Stats.below st (botstatsHandler st) ∧
      (botstatsHandler st).commands_processed = st.commands_processed + 1) := by
  refine ⟨⟨rfl, rfl, rfl, rfl⟩, ?_, ?_, ?_, ?_⟩
  · intro st u o t ht
    cases o with
    | error e =>
      exact ⟨⟨Nat.le_succ _, le_rfl, Nat.le_succ _, le_rfl⟩, rfl⟩
    | ok v =>
      cases v with
      | none => exact ⟨⟨Nat.le_succ _, le_rfl, Nat.le_succ _, le_rfl⟩, rfl⟩
      | some r =>
        exact ⟨⟨Nat.le_succ _, Nat.le_succ _, le_rfl, le_add_of_nonneg_right ht⟩, rfl⟩
  · intro st p1 p2 o1 o2 t ht
    by_cases h : pyLower (pyStrip p1) = pyLower (pyStrip p2)
    · unfold compareHandler
      rw [if_pos h]
      exact ⟨⟨Nat.le_succ _, le_rfl, le_rfl, le_rfl⟩, rfl⟩
    · unfold compareHandler
      rw [if_neg h]
      cases hd1 : exceptToOption o1 with
      | none =>
        cases hd2 : exceptToOption o2 with
        | none => exact ⟨⟨Nat.le_succ _, le_rfl, Nat.le_add_right _ _, le_rfl⟩, rfl⟩
        | some r2 => exact ⟨⟨Nat.le_succ _, le_rfl, Nat.le_succ _, le_rfl⟩, rfl⟩
      | some r1 =>
        cases hd2 : exceptToOption o2 with
        | none => exact ⟨⟨Nat.le_succ _, le_rfl, Nat.le_succ _, le_rfl⟩, rfl⟩
        | some r2 =>
          exact ⟨⟨Nat.le_succ _, Nat.le_add_right _ _, le_rfl,
            le_add_of_nonneg_right ht⟩, rfl⟩
  · intro st
    exact ⟨⟨Nat.le_succ _, le_rfl, Nat.le_succ _, le_rfl⟩, rfl⟩
  · intro st
    exact ⟨⟨Nat.le_succ _, le_rfl, le_rfl, le_rfl⟩, rfl⟩

/-- Witness for C10: one concrete invocation of each handler path from the
initial counters. -/
theorem stats_counters_monotone_witness :
    (0 : ℚ) ≤ 0 ∧
    Stats.below Stats.init (playerHandler Stats.init ['B', 'o', 'b'] (Except.ok none) 0).1 ∧
    (playerHandler Stats.init ['B', 'o', 'b'] (Except.ok none) 0).1.commands_processed =
      Stats.init.commands_processed + 1 ∧
    Stats.below Stats.init (botstatsHandler Stats.init) ∧
    (botstatsHandler Stats.init).commands_processed = Stats.init.commands_processed + 1 :=
  ⟨le_refl 0,
    (stats_counters_monotone.2.1 Stats.init ['B', 'o', 'b'] (Except.ok none) 0 (le_refl 0)).1,
    (stats_counters_monotone.2.1 Stats.init ['B', 'o', 'b'] (Except.ok none) 0 (le_refl 0)).2,
    (stats_counters_monotone.2.2.2.2 Stats.init).1,
    (stats_counters_monotone.2.2.2.2 Stats.init).2⟩
